import Mathlib

/-!
Verification of the Sendaway scheduled batch delivery subsystem.

The definitions below are a shallow embedding of the TypeScript source:
the `process-delivery` edge function (batch orchestrator, idempotency
ledger over `delivery_logs`, composer `buildDeliveryEmail`, batch lock
over `delivery_batch_locks`), the shared `verifyCronSecret` helper, the
`cleanup-logs` function, the `webhook-stripe` payment confirmation
handler, and the client-side `MessageService.createMessage` free-tier
path.  Database tables are lists of rows; UUIDs are `Nat`; timestamps
are `Nat` milliseconds; external effects (the Resend send call, signed
URL generation, the wall clock, infrastructure failures) are explicit
parameters so a run is a pure function of its inputs.
-/

/-- Status values of a `delivery_logs` row
(schema CHECK: pending, delivered, sent, bounced, failed). -/
inductive LogStatus
  | pending
  | delivered
  | sent
  | bounced
  | failed
deriving DecidableEq, Repr

/-- One row of the `delivery_logs` table (the idempotency ledger). -/
structure LogRow where
  message_id : Nat
  attempt_number : Nat
  status : LogStatus
  email_provider_id : Option String
  error_message : Option String
  created_at : Nat
deriving DecidableEq, Repr

/-- Status values of a `messages` row (schema CHECK: pending, delivered, failed). -/
inductive MsgStatus
  | pending
  | delivered
  | failed
deriving DecidableEq, Repr

/-- One row of the `messages` table.  `message_text` is optional to mirror
the `message.message_text ?? ''` guard in `buildDeliveryEmail`. -/
structure MessageRow where
  id : Nat
  user_id : Nat
  message_text : Option String
  video_storage_path : Option String
  delivery_email : String
  scheduled_date : Nat
  delivery_token : Nat
  status : MsgStatus
  delivered_at : Option Nat
deriving DecidableEq, Repr

/-- The relational state the delivery pipeline reads and writes:
the `delivery_logs` and `messages` tables. -/
structure DeliveryState where
  logs : List LogRow
  messages : List MessageRow
deriving DecidableEq, Repr

/-- The `delivery_logs` rows for one message
(the `.eq('message_id', messageId)` filter). -/
def logsFor (logs : List LogRow) (mid : Nat) : List LogRow :=
  logs.filter (fun r => r.message_id == mid)

/-- The `delivery_logs` rows for one message with status `delivered`
(the `.eq('message_id', ...).eq('status', 'delivered')` filter). -/
def deliveredLogsFor (logs : List LogRow) (mid : Nat) : List LogRow :=
  logs.filter (fun r => r.message_id == mid && r.status == LogStatus.delivered)

/-- `checkDeliveryIdempotency`: true iff `delivery_logs` has a `delivered`
row for this message.  The source query ends in `.single()`, whose data is
non-null exactly when one row matches the filter. -/
def checkDeliveryIdempotency (logs : List LogRow) (mid : Nat) : Bool :=
  (deliveredLogsFor logs mid).length == 1

/-- Result of `prepareDelivery` (interface `PrepareResult`). -/
structure PrepareResult where
  skip : Bool
  attemptNumber : Nat
deriving DecidableEq, Repr

/-- `prepareDelivery`: idempotency check; if not already delivered, compute
`count(existing attempts) + 1`, insert a `pending` log row with that attempt
number and return it.  `now` is the inserted row's `created_at`. -/
def prepareDelivery (logs : List LogRow) (mid : Nat) (now : Nat) :
    PrepareResult × List LogRow :=
  if checkDeliveryIdempotency logs mid then
    ({ skip := true, attemptNumber := 0 }, logs)
  else
    let attemptNumber := (logsFor logs mid).length + 1
    ({ skip := false, attemptNumber := attemptNumber },
      logs ++ [{ message_id := mid, attempt_number := attemptNumber,
                 status := LogStatus.pending, email_provider_id := none,
                 error_message := none, created_at := now }])

/-- `validateEmail`: true iff the email contains the `@` symbol. -/
def validateEmail (email : String) : Bool :=
  email.contains '@'

/-- The fixed subject line of every delivery email. -/
def deliverySubject : String := "Your FtrMsg message has arrived!"

def htmlPartA : String :=
"
<!DOCTYPE html>
<html>
<head>
  <meta charset=\"utf-8\">
  <meta name=\"viewport\" content=\"width=device-width, initial-scale=1.0\">
  <title>Your FtrMsg Message</title>
</head>
<body style=\"margin: 0; padding: 0; background-color: #FFFDF7; font-family: 'Helvetica Neue', Arial, sans-serif;\">
  <table width=\"100%\" cellpadding=\"0\" cellspacing=\"0\" style=\"background-color: #FFFDF7; padding: 40px 20px;\">
    <tr>
      <td align=\"center\">
        <table width=\"100%\" cellpadding=\"0\" cellspacing=\"0\" style=\"max-width: 600px; background: #FFFFFF; border: 3px solid #000000; border-radius: 8px; box-shadow: 8px 8px 0px 0px #000000;\">
          <!-- Header -->
          <tr>
            <td style=\"background: #FDE68A; padding: 30px; border-bottom: 3px solid #000000; border-radius: 5px 5px 0 0;\">
              <h1 style=\"margin: 0; font-size: 28px; font-weight: 800; color: #000000; text-transform: uppercase;\">
                FTRMSG
              </h1>
              <p style=\"margin: 10px 0 0 0; font-size: 16px; color: #333333;\">
                Your message from the past has arrived!
              </p>
            </td>
          </tr>
          <!-- Content -->
          <tr>
            <td style=\"padding: 30px;\">
              <div style=\"background: #F9F9F9; border: 2px solid #000000; border-radius: 8px; padding: 25px; margin-bottom: 20px;\">
                <p style=\"margin: 0; font-size: 16px; line-height: 1.6; color: #000000; white-space: pre-wrap;\">"

def htmlPartB : String :=
"</p>
              </div>
              "

def htmlPartC : String :=
"
            </td>
          </tr>
          <!-- Footer -->
          <tr>
            <td style=\"background: #F5F5F5; padding: 20px 30px; border-top: 2px solid #000000; border-radius: 0 0 5px 5px;\">
              <p style=\"margin: 0; font-size: 14px; color: #555555; text-align: center;\">
                Sent with love from your past self via <a href=\""

def htmlPartD : String :=
"\" style=\"color: #000000; font-weight: 700;\">FtrMsg</a>
              </p>
            </td>
          </tr>
        </table>
      </td>
    </tr>
  </table>
</body>
</html>
  "

def videoSectionPrefix : String :=
"
              <div style=\"background: #BAE6FD; border: 2px solid #000000; border-radius: 8px; padding: 20px; margin-bottom: 20px; text-align: center;\">
                <p style=\"margin: 0 0 15px 0; font-weight: 700; color: #000000;\">Video Message Attached</p>
                <a href=\""

def videoSectionSuffix : String :=
"\" style=\"display: inline-block; background: #BBF7D0; color: #000000; text-decoration: none; padding: 12px 24px; border: 2px solid #000000; border-radius: 8px; font-weight: 700; box-shadow: 4px 4px 0px 0px #000000;\">
                  Watch Video
                </a>
                <p style=\"margin: 15px 0 0 0; font-size: 12px; color: #555555;\">
                  Video link expires in 7 days
                </p>
              </div>
              "

/-- The `videoUrl ? ... : ''` ternary of the template: a video block around
the signed URL when one is present, the empty string otherwise. -/
def videoSection : Option String → String
  | none => ""
  | some url => videoSectionPrefix ++ url ++ videoSectionSuffix

/-- The template literal assigned to `html` in `buildDeliveryEmail`, with its
two interpolations (`messageText`, `appUrl`) and the video ternary explicit. -/
def deliveryEmailHtml (messageText : String) (videoUrl : Option String)
    (appUrl : String) : String :=
  htmlPartA ++ messageText ++ htmlPartB ++ videoSection videoUrl
    ++ htmlPartC ++ appUrl ++ htmlPartD

/-- `buildDeliveryEmail`: throws `ValidationError` when the address lacks `@`;
otherwise renders the template with `message_text ?? ''` and the optional
video section.  `Except.error` carries the `ValidationError` message. -/
def buildDeliveryEmail (m : MessageRow) (videoUrl : Option String)
    (appUrl : String) : Except String (String × String) :=
  if !validateEmail m.delivery_email then
    Except.error ("Invalid delivery email: " ++ m.delivery_email)
  else
    let messageText := m.message_text.getD ""
    Except.ok (deliverySubject, deliveryEmailHtml messageText videoUrl appUrl)

/-- `composeDelivery`: generates a signed video URL when the message has a
`video_storage_path` (the storage call's result is the `signedUrl` input,
`none` when the lookup yields nothing) and builds the HTML email. -/
def composeDelivery (m : MessageRow) (signedUrl : Option String)
    (appUrl : String) : Except String (String × String) :=
  let videoUrl : Option String :=
    match m.video_storage_path with
    | some _ => signedUrl
    | none => none
  buildDeliveryEmail m videoUrl appUrl

/-- Outcome of the Resend send call for one message: the provider's message
id on success, the normalized error message on failure. -/
inductive SendOutcome
  | ok (providerId : Option String)
  | err (msg : String)
deriving DecidableEq, Repr

/-- `executeDelivery`: sends the email; on success marks this attempt's log
row `delivered` (matched by `message_id` and `attempt_number`) and mirrors
`status = 'delivered'`, `delivered_at = now` onto the `messages` row.  On
send failure the error propagates to the caller's catch. -/
def executeDelivery (st : DeliveryState) (m : MessageRow)
    (attemptNumber : Nat) (send : SendOutcome) (now : Nat) :
    Except String DeliveryState :=
  match send with
  | SendOutcome.err e => Except.error e
  | SendOutcome.ok pid =>
    Except.ok
      { logs := st.logs.map (fun r =>
          if r.message_id == m.id && r.attempt_number == attemptNumber then
            { r with status := LogStatus.delivered, email_provider_id := pid }
          else r),
        messages := st.messages.map (fun mm =>
          if mm.id == m.id then
            { mm with status := MsgStatus.delivered, delivered_at := some now }
          else mm) }

/-- Newest `created_at` among a message's log rows: what the failure path's
`.order('created_at', { ascending: false }).limit(1)` sorts by. -/
def mostRecentTime (logs : List LogRow) (mid : Nat) : Option Nat :=
  ((logsFor logs mid).map LogRow.created_at).max?

/-- Update the first row satisfying `p`, leave every other row unchanged
(the effect of an update bounded by `.limit(1)`). -/
def updateFirst (logs : List LogRow) (p : LogRow → Bool)
    (f : LogRow → LogRow) : List LogRow :=
  match logs with
  | [] => []
  | r :: rest => if p r then f r :: rest else r :: updateFirst rest p f

/-- The catch branch's log update: set `status = 'failed'` and the error
message on the most recent `delivery_logs` row for the message, located by
`created_at` recency ordering with `.limit(1)`. -/
def failMostRecentLog (logs : List LogRow) (mid : Nat) (err : String) :
    List LogRow :=
  match mostRecentTime logs mid with
  | none => logs
  | some t =>
    updateFirst logs (fun r => r.message_id == mid && r.created_at == t)
      (fun r => { r with status := LogStatus.failed, error_message := some err })

/-- The whole catch branch of `processMessage`: fail the most recent log row
for the message and set the `messages` row's status to `failed`. -/
def failMessagePath (st : DeliveryState) (mid : Nat) (errMsg : String) :
    DeliveryState :=
  { logs := failMostRecentLog st.logs mid errMsg,
    messages := st.messages.map (fun mm =>
      if mm.id == mid then { mm with status := MsgStatus.failed } else mm) }

/-- Per-message outcome aggregated by the batch loop. -/
inductive ProcessStatus
  | delivered
  | failed
  | skipped
deriving DecidableEq, Repr

/-- `processMessage`: prepare (idempotency check and attempt insert), compose,
execute; any thrown error (compose validation, send failure) is caught and
turned into the failure path. -/
def processMessage (st : DeliveryState) (m : MessageRow) (send : SendOutcome)
    (signedUrl : Option String) (appUrl : String) (now : Nat) :
    ProcessStatus × DeliveryState :=
  let prep := prepareDelivery st.logs m.id now
  if prep.1.skip then
    (ProcessStatus.skipped, { st with logs := prep.2 })
  else
    let st1 : DeliveryState := { st with logs := prep.2 }
    match composeDelivery m signedUrl appUrl with
    | Except.error e => (ProcessStatus.failed, failMessagePath st1 m.id e)
    | Except.ok _ =>
      match executeDelivery st1 m prep.1.attemptNumber send now with
      | Except.ok st2 => (ProcessStatus.delivered, st2)
      | Except.error e => (ProcessStatus.failed, failMessagePath st1 m.id e)

/-- Aggregate result of one batch run (interface `BatchResult`). -/
structure BatchResult where
  processed : Nat
  delivered : Nat
  failed : Nat
  stoppedEarly : Bool
deriving DecidableEq, Repr

/-- `TIMEOUT_MS = 45000`: 45s deadline inside the 60s edge function limit. -/
def TIMEOUT_MS : Nat := 45000

/-- `BATCH_SIZE = 30` messages per run. -/
def BATCH_SIZE : Nat := 30

/-- `RATE_LIMIT_DELAY_MS = 1000` between sends. -/
def RATE_LIMIT_DELAY_MS : Nat := 1000

/-- The batch loop's external inputs, indexed by loop iteration: the wall
clock read at each deadline check (`Date.now()`), the send outcome and the
signed-URL lookup result for each message, and the `APP_URL` value. -/
structure BatchEnv where
  clock : Nat → Nat
  send : Nat → SendOutcome
  signedUrl : Nat → Option String
  appUrl : String

/-- The `for` loop of `processMessageBatch` from iteration `i`: before each
iteration compare elapsed time against `TIMEOUT_MS`; on exceedance set
`stoppedEarly` and break, else process the message and count it. -/
def processBatchAux (env : BatchEnv) (startTime : Nat) (msgs : List MessageRow)
    (i : Nat) (st : DeliveryState) (acc : BatchResult) :
    BatchResult × DeliveryState :=
  match msgs with
  | [] => (acc, st)
  | m :: rest =>
    if TIMEOUT_MS < env.clock i - startTime then
      ({ acc with stoppedEarly := true }, st)
    else
      let step := processMessage st m (env.send i) (env.signedUrl i)
        env.appUrl (env.clock i)
      let acc1 : BatchResult :=
        { acc with
          processed := acc.processed + 1,
          delivered := acc.delivered +
            (if step.1 = ProcessStatus.delivered then 1 else 0),
          failed := acc.failed +
            (if step.1 = ProcessStatus.failed then 1 else 0) }
      processBatchAux env startTime rest (i + 1) step.2 acc1

/-- `processMessageBatch`: sequential processing with early termination on
timeout, starting from zero counters. -/
def processMessageBatch (env : BatchEnv) (msgs : List MessageRow)
    (startTime : Nat) (st : DeliveryState) : BatchResult × DeliveryState :=
  processBatchAux env startTime msgs 0 st
    { processed := 0, delivered := 0, failed := 0, stoppedEarly := false }

/-- `enforce_single_batch_lock` trigger plus the acquiring INSERT: the insert
is allowed only when the `delivery_batch_locks` table is empty, else the
trigger returns NULL and zero rows come back (`.single()` yields no data). -/
def acquireBatchLock (locks : List Nat) (newId : Nat) : Option Nat × List Nat :=
  if 0 < locks.length then (none, locks)
  else (some newId, locks ++ [newId])

/-- The releasing DELETE: remove the lock row with the acquired id. -/
def releaseBatchLock (locks : List Nat) (lockId : Nat) : List Nat :=
  locks.filter (fun id => id != lockId)

/-- The operations any client may perform on `delivery_batch_locks`: the
trigger-guarded acquiring INSERT and the releasing DELETE. -/
inductive LockOp
  | acquire (newId : Nat)
  | release (lockId : Nat)

/-- Apply one lock-table operation. -/
def applyLockOp (locks : List Nat) : LockOp → List Nat
  | LockOp.acquire newId => (acquireBatchLock locks newId).2
  | LockOp.release lockId => releaseBatchLock locks lockId

/-- `verifyCronSecret`: false when the `CRON_SECRET` environment variable is
unset or empty (`!cronSecret`), else strict equality between the
`x-cron-secret` header (null when absent) and the secret. -/
def verifyCronSecret (cronSecret : Option String) (header : Option String) :
    Bool :=
  match cronSecret with
  | none => false
  | some s => if s.isEmpty then false else header == some s

/-- The HTTP responses of the `process-delivery` endpoint. -/
inductive ServeResponse
  | unauthorized
  | skippedConcurrent
  | ok (result : BatchResult)
  | serverError
deriving DecidableEq, Repr

/-- The storage state `process-delivery` touches: the lock table and the
delivery tables. -/
structure World where
  locks : List Nat
  db : DeliveryState
deriving DecidableEq, Repr

/-- Outcome of the lock-releasing DELETE in the `finally` block.  The
supabase client reports database failures in the awaited result's `error`
field and rejects the promise only on lower-level failures, and the source
discards that result, so the two failure channels behave differently:
`resultError` is invisible to the code, `thrown` reaches its catch block. -/
inductive ReleaseOutcome
  | ok
  | resultError
  | thrown
deriving DecidableEq, Repr

/-- External inputs of one `process-delivery` invocation: the configured
secret and request header, the fresh lock UUID, today's date, whether the
selection query fails, how the lock-releasing delete ends, the loop start
time and the batch environment. -/
structure ServeEnv where
  cronSecret : Option String
  cronHeader : Option String
  newLockId : Nat
  today : Nat
  queryFails : Bool
  release : ReleaseOutcome
  startTime : Nat
  batch : BatchEnv

/-- Observable completion of one `process-delivery` invocation: the HTTP
response, the final storage state, and whether the structured
`BATCH_LOCK_RELEASE_FAILED` critical event was logged. -/
structure ServeOutcome where
  response : ServeResponse
  world : World
  criticalLogged : Bool
deriving DecidableEq, Repr

/-- The selection query: messages with `scheduled_date <= today` and
`status = 'pending'`, limited to `BATCH_SIZE`. -/
def selectDueMessages (msgs : List MessageRow) (today : Nat) :
    List MessageRow :=
  (msgs.filter (fun m =>
    decide (m.scheduled_date ≤ today) && (m.status == MsgStatus.pending))).take
    BATCH_SIZE

/-- The `finally` block of `serve`: when a lock was acquired, await the
DELETE of its row, discarding the result — a failure reported in the
result's `error` field is silently ignored (the row remains, nothing is
logged); only a thrown failure reaches the catch block, which logs the
structured critical event and swallows it.  The response is unchanged in
every case. -/
def finalizeRelease (resp : ServeResponse) (locks : List Nat)
    (db : DeliveryState) (lockId : Option Nat) (release : ReleaseOutcome) :
    ServeOutcome :=
  match lockId with
  | none => { response := resp, world := { locks := locks, db := db },
              criticalLogged := false }
  | some id =>
    match release with
    | ReleaseOutcome.ok =>
      { response := resp,
        world := { locks := releaseBatchLock locks id, db := db },
        criticalLogged := false }
    | ReleaseOutcome.resultError =>
      { response := resp, world := { locks := locks, db := db },
        criticalLogged := false }
    | ReleaseOutcome.thrown =>
      { response := resp, world := { locks := locks, db := db },
        criticalLogged := true }

/-- The `serve` handler of `process-delivery`: cron auth, lock acquisition,
due-message selection, batch processing, and the guaranteed `finally`
release of the lock. -/
def processDeliveryServe (env : ServeEnv) (w : World) : ServeOutcome :=
  if !verifyCronSecret env.cronSecret env.cronHeader then
    { response := ServeResponse.unauthorized, world := w,
      criticalLogged := false }
  else
    match acquireBatchLock w.locks env.newLockId with
    | (none, locks1) =>
      { response := ServeResponse.skippedConcurrent,
        world := { locks := locks1, db := w.db }, criticalLogged := false }
    | (some lockId, locks1) =>
      if env.queryFails then
        finalizeRelease ServeResponse.serverError locks1 w.db (some lockId)
          env.release
      else
        let msgs := selectDueMessages w.db.messages env.today
        if msgs.isEmpty then
          finalizeRelease
            (ServeResponse.ok
              { processed := 0, delivered := 0, failed := 0,
                stoppedEarly := false })
            locks1 w.db (some lockId) env.release
        else
          let out := processMessageBatch env.batch msgs env.startTime w.db
          finalizeRelease (ServeResponse.ok out.1) locks1 out.2 (some lockId)
            env.release

/-- The HTTP responses of the `cleanup-logs` endpoint. -/
inductive CleanupResponse
  | unauthorized
  | ok (deleted : Nat)
deriving DecidableEq, Repr

/-- The `serve` handler of `cleanup-logs`: cron auth, then delete
`delivery_logs` rows with `created_at` before the 90-day cutoff. -/
def cleanupLogsServe (cronSecret header : Option String) (cutoff : Nat)
    (logs : List LogRow) : CleanupResponse × List LogRow :=
  if !verifyCronSecret cronSecret header then
    (CleanupResponse.unauthorized, logs)
  else
    let remaining := logs.filter (fun r => !(r.created_at < cutoff))
    (CleanupResponse.ok (logs.length - remaining.length), remaining)

/-- One row of the `profiles` table. -/
structure Profile where
  id : Nat
  tier : String
  free_message_used : Bool
  storage_used_bytes : Nat
  storage_limit_bytes : Nat
deriving DecidableEq, Repr

/-- The `update_storage_used` database function: atomically apply a byte
delta to the profile's counter, clamped at the zero floor (`GREATEST(0, ...)`). -/
def update_storage_used (profiles : List Profile) (uid : Nat) (delta : Int) :
    List Profile :=
  profiles.map (fun p =>
    if p.id == uid then
      { p with storage_used_bytes :=
          ((p.storage_used_bytes : Int) + delta).toNat }
    else p)

/-- Input of `MessageService.createMessage` (interface `CreateMessageData`). -/
structure CreateMessageData where
  messageText : String
  scheduledDate : Nat
  deliveryEmail : String
  videoStoragePath : Option String
  videoSizeBytes : Nat
  videoDurationSeconds : Nat
deriving DecidableEq, Repr

/-- The client-side application state `createMessage` touches. -/
structure AppState where
  profiles : List Profile
  messages : List MessageRow
deriving DecidableEq, Repr

/-- Result of `createMessage` (interface `CreateMessageResult`). -/
structure CreateMessageResult where
  success : Bool
  messageId : Option Nat
  error : Option String
deriving DecidableEq, Repr

/-- The video/storage tail of `createMessage`: apply the quota delta; if the
RPC fails, compensate by deleting the uploaded blob (logging a structured
failure if that delete also fails) and the message record. -/
def createMessageVideoPhase (uid : Nat) (data : CreateMessageData)
    (newId : Nat) (storageRpcFails : Bool) (st : AppState) :
    CreateMessageResult × AppState :=
  if data.videoStoragePath.isSome && data.videoSizeBytes != 0 then
    if storageRpcFails then
      (⟨false, none, some "Failed to update storage quota. Please try again."⟩,
        { st with messages := st.messages.filter (fun mm => mm.id != newId) })
    else
      (⟨true, some newId, none⟩,
        { st with profiles :=
            update_storage_used st.profiles uid (data.videoSizeBytes : Int) })
  else
    (⟨true, some newId, none⟩, st)

/-- `MessageService.createMessage`: tier checks against the cached profile,
optimistic insert of the message row, the conditional free-flag update used
as the concurrency gate (with compensating delete on a lost race), then the
storage-quota phase. -/
def createMessage (user : Option Nat) (profile : Option Profile)
    (data : CreateMessageData) (newId : Nat) (storageRpcFails : Bool)
    (st : AppState) : CreateMessageResult × AppState :=
  match user, profile with
  | none, _ =>
    (⟨false, none, some "You must be logged in to send a message"⟩, st)
  | some _, none =>
    (⟨false, none, some "You must be logged in to send a message"⟩, st)
  | some uid, some prof =>
    if prof.tier == "free" && prof.free_message_used then
      (⟨false, none, some "You have already used your free message. Upgrade to Pro for unlimited messages."⟩, st)
    else if prof.tier == "free" && data.videoStoragePath.isSome then
      (⟨false, none, some "Video attachments are only available for Pro users."⟩, st)
    else
      let newMsg : MessageRow :=
        { id := newId, user_id := uid,
          message_text := some data.messageText,
          video_storage_path := data.videoStoragePath,
          delivery_email := data.deliveryEmail,
          scheduled_date := data.scheduledDate,
          delivery_token := 0,
          status := MsgStatus.pending, delivered_at := none }
      let st1 : AppState := { st with messages := st.messages ++ [newMsg] }
      if prof.tier.isEmpty || prof.tier == "free" then
        let affected := st1.profiles.filter (fun p =>
          p.id == uid && p.free_message_used == false)
        let st2 : AppState :=
          { st1 with profiles := st1.profiles.map (fun p =>
              if p.id == uid && p.free_message_used == false then
                { p with free_message_used := true }
              else p) }
        if affected.length != 1 then
          (⟨false, none, some "Your free message has already been used. Upgrade to Pro for unlimited messages."⟩,
            { st2 with messages :=
                st2.messages.filter (fun mm => mm.id != newId) })
        else
          createMessageVideoPhase uid data newId storageRpcFails st2
      else
        createMessageVideoPhase uid data newId storageRpcFails st1

/-- Status values of a `payments` row
(schema CHECK: pending, completed, failed, refunded). -/
inductive PayStatus
  | pending
  | completed
  | failed
  | refunded
deriving DecidableEq, Repr

/-- One row of the `payments` table. -/
structure Payment where
  user_id : Nat
  stripe_payment_intent_id : String
  stripe_checkout_session_id : String
  amount_cents : Nat
  product_type : String
  status : PayStatus
  error_message : Option String
deriving DecidableEq, Repr

/-- The storage state the Stripe webhook touches. -/
structure StripeState where
  payments : List Payment
  profiles : List Profile
deriving DecidableEq, Repr

/-- The HTTP responses of the `webhook-stripe` endpoint. -/
inductive WebhookResponse
  | badRequest (msg : String)
  | ignored (eventType : String)
  | alreadyProcessed
  | completedOk
  | serverError (msg : String)
deriving DecidableEq, Repr

/-- `.single()` semantics: data exactly when one row matches the filter. -/
def singleRow {α : Type} : List α → Option α
  | [x] => some x
  | _ => none

/-- The provisioning tail of the webhook: upgrade the profile to pro with the
2GB storage limit; on profile failure mark the payment `failed` and answer
500; then mark the payment `completed`, answering 500 if that update fails. -/
def provisionProTier (uid : Nat) (checkoutSessionId : String)
    (profileUpdateFails paymentUpdateFails : Bool) (st : StripeState) :
    WebhookResponse × StripeState :=
  if profileUpdateFails then
    (WebhookResponse.serverError "Failed to provision Pro tier",
      { st with payments := st.payments.map (fun p =>
          if p.stripe_checkout_session_id == checkoutSessionId then
            { p with status := PayStatus.failed,
                     error_message := some "profile update failed" }
          else p) })
  else
    let st1 : StripeState :=
      { st with profiles := st.profiles.map (fun pr =>
          if pr.id == uid then
            { pr with tier := "pro", storage_limit_bytes := 2147483648 }
          else pr) }
    if paymentUpdateFails then
      (WebhookResponse.serverError "Failed to update payment status", st1)
    else
      (WebhookResponse.completedOk,
        { st1 with payments := st1.payments.map (fun p =>
            if p.stripe_checkout_session_id == checkoutSessionId then
              { p with status := PayStatus.completed }
            else p) })

/-- The `serve` handler of `webhook-stripe`: signature verification (fails
closed before any mutation), event filtering, the idempotency lookup by
`stripe_checkout_session_id` with no status filter, insertion of a pending
payment record for a never-seen session, then tier provisioning. -/
def webhookStripeServe (sigValid : Bool) (eventType : String)
    (userId : Option Nat) (checkoutSessionId paymentIntentId : String)
    (paymentInsertFails profileUpdateFails paymentUpdateFails : Bool)
    (st : StripeState) : WebhookResponse × StripeState :=
  if !sigValid then
    (WebhookResponse.badRequest "Invalid signature", st)
  else if eventType != "checkout.session.completed" then
    (WebhookResponse.ignored eventType, st)
  else
    match userId with
    | none => (WebhookResponse.badRequest "Missing userId in metadata", st)
    | some uid =>
      let existingPayment := singleRow (st.payments.filter (fun p =>
        p.stripe_checkout_session_id == checkoutSessionId))
      match existingPayment with
      | some p =>
        if p.status == PayStatus.completed then
          (WebhookResponse.alreadyProcessed, st)
        else
          provisionProTier uid checkoutSessionId profileUpdateFails
            paymentUpdateFails st
      | none =>
        if paymentInsertFails then
          (WebhookResponse.serverError "Failed to record payment", st)
        else
          let newPayment : Payment :=
            { user_id := uid,
              stripe_payment_intent_id := paymentIntentId,
              stripe_checkout_session_id := checkoutSessionId,
              amount_cents := 900,
              product_type := "pro_upgrade",
              status := PayStatus.pending,
              error_message := none }
          provisionProTier uid checkoutSessionId profileUpdateFails
            paymentUpdateFails
            { st with payments := st.payments ++ [newPayment] }

/-- The `messages` rows for one id (the `.eq('id', ...)` filter). -/
def msgRowsFor (st : DeliveryState) (mid : Nat) : List MessageRow :=
  st.messages.filter (fun mm => mm.id == mid)

/-- The delivered rows for a message are the status-filtered rows of
`logsFor`. -/
theorem deliveredLogsFor_eq_filter (l : List LogRow) (mid : Nat) :
    deliveredLogsFor l mid =
      (logsFor l mid).filter (fun r => r.status == LogStatus.delivered) := by
  unfold deliveredLogsFor logsFor
  rw [List.filter_filter]
  apply List.filter_congr
  intro r _
  exact Bool.and_comm _ _

/-- A map that fixes every row the predicate keeps, and does not change how
the predicate judges a row, commutes out of the filter. -/
theorem filter_map_fixed {α : Type} (l : List α) (g : α → α)
    (q : α → Bool) (hfix : ∀ r, q r = true → g r = r)
    (hq : ∀ r, q (g r) = q r) :
    (l.map g).filter q = l.filter q := by
  induction l with
  | nil => rfl
  | cons r rest ih =>
    cases hqr : q r with
    | true => simp [List.filter_cons, hq r, hqr, hfix r hqr, ih]
    | false => simp [List.filter_cons, hq r, hqr, ih]

/-- A map that does not change how the predicate judges a row commutes with
the filter. -/
theorem filter_map_comm {α : Type} (l : List α) (g : α → α)
    (q : α → Bool) (hq : ∀ r, q (g r) = q r) :
    (l.map g).filter q = (l.filter q).map g := by
  induction l with
  | nil => rfl
  | cons r rest ih =>
    cases hqr : q r with
    | true => simp [List.filter_cons, hq r, hqr, ih]
    | false => simp [List.filter_cons, hq r, hqr, ih]

/-- `updateFirst` leaves a filter unchanged when the touched row is invisible
to it, before as after the update. -/
theorem filter_updateFirst_invisible (l : List LogRow) (p : LogRow → Bool)
    (f : LogRow → LogRow) (q : LogRow → Bool)
    (h : ∀ r, p r = true → q r = false ∧ q (f r) = false) :
    (updateFirst l p f).filter q = l.filter q := by
  induction l with
  | nil => rfl
  | cons r rest ih =>
    unfold updateFirst
    cases hpr : p r with
    | true => simp [List.filter_cons, (h r hpr).1, (h r hpr).2]
    | false =>
      cases hqr : q r with
      | true => simp [List.filter_cons, hqr, ih]
      | false => simp [List.filter_cons, hqr, ih]

/-- `updateFirst` preserves the length of any filter the update does not
change rows in or out of. -/
theorem filter_updateFirst_length (l : List LogRow) (p : LogRow → Bool)
    (f : LogRow → LogRow) (q : LogRow → Bool)
    (hq : ∀ r, q (f r) = q r) :
    ((updateFirst l p f).filter q).length = (l.filter q).length := by
  induction l with
  | nil => rfl
  | cons r rest ih =>
    unfold updateFirst
    cases hpr : p r with
    | true =>
      cases hqr : q r with
      | true => simp [List.filter_cons, hq r, hqr]
      | false => simp [List.filter_cons, hq r, hqr]
    | false =>
      cases hqr : q r with
      | true => simp [List.filter_cons, hqr, ih]
      | false => simp [List.filter_cons, hqr, ih]

/-- A filter that rejects every updated row cannot grow under `updateFirst`. -/
theorem filter_updateFirst_length_le (l : List LogRow) (p : LogRow → Bool)
    (f : LogRow → LogRow) (q : LogRow → Bool)
    (h : ∀ r, q (f r) = false) :
    ((updateFirst l p f).filter q).length ≤ (l.filter q).length := by
  induction l with
  | nil => exact Nat.le_refl _
  | cons r rest ih =>
    unfold updateFirst
    cases hpr : p r with
    | true =>
      cases hqr : q r with
      | true => simp [List.filter_cons, h r, hqr]
      | false => simp [List.filter_cons, h r, hqr]
    | false =>
      cases hqr : q r with
      | true =>
        simp [List.filter_cons, hqr]
        omega
      | false => simpa [List.filter_cons, hqr] using ih

/-- Every row of `updateFirst l p f` is a row of `l` or the image under `f`
of a row of `l`. -/
theorem updateFirst_mem (l : List LogRow) (p : LogRow → Bool)
    (f : LogRow → LogRow) :
    ∀ r ∈ updateFirst l p f, r ∈ l ∨ ∃ r0 ∈ l, r = f r0 := by
  induction l with
  | nil => intro r h; cases h
  | cons r0 rest ih =>
    intro r hr
    unfold updateFirst at hr
    cases hpr : p r0 with
    | true =>
      rw [hpr] at hr; simp only [if_pos rfl] at hr
      rcases List.mem_cons.mp hr with h | h
      · exact Or.inr ⟨r0, List.mem_cons_self .., h⟩
      · exact Or.inl (List.mem_cons_of_mem _ h)
    | false =>
      rw [hpr] at hr
      simp only [Bool.false_eq_true, if_false] at hr
      rcases List.mem_cons.mp hr with h | h
      · exact Or.inl (h ▸ List.mem_cons_self ..)
      · rcases ih r h with h' | ⟨r1, hr1, he⟩
        · exact Or.inl (List.mem_cons_of_mem _ h')
        · exact Or.inr ⟨r1, List.mem_cons_of_mem _ hr1, he⟩

/-- Invariant step: one lock-table operation keeps at most one lock row. -/
theorem lockOp_preserves_singleton (locks : List Nat) (op : LockOp)
    (h : locks.length ≤ 1) : (applyLockOp locks op).length ≤ 1 := by
  cases op with
  | acquire newId =>
    simp only [applyLockOp, acquireBatchLock]
    by_cases h0 : 0 < locks.length
    · rw [if_pos h0]
      exact h
    · rw [if_neg h0]
      simp only [List.length_append, List.length_cons, List.length_nil]
      omega
  | release lockId =>
    simp only [applyLockOp, releaseBatchLock]
    exact Nat.le_trans (List.length_filter_le _ _) h

/-- Invariant fold: any sequence of lock-table operations keeps at most one
lock row. -/
theorem foldl_lock_singleton (ops : List LockOp) :
    ∀ locks : List Nat, locks.length ≤ 1 →
      (ops.foldl applyLockOp locks).length ≤ 1 := by
  induction ops with
  | nil => intro locks h; exact h
  | cons op rest ih =>
    intro locks h
    exact ih _ (lockOp_preserves_singleton locks op h)

/-- C2: at every state reachable from the empty lock table, at most one
batch-lock row exists; an acquire while a lock row exists creates no second
row and yields the AlreadyLocked outcome (`serve` answers the skipped
response with reason concurrent execution and leaves the state untouched);
and of two serialized acquires at most one succeeds. -/
theorem batch_lock_mutual_exclusion :
    (∀ ops : List LockOp, (ops.foldl applyLockOp []).length ≤ 1) ∧
    (∀ (locks : List Nat) (newId : Nat), locks ≠ [] →
      acquireBatchLock locks newId = (none, locks)) ∧
    (∀ (locks : List Nat) (id1 id2 : Nat),
      ¬((acquireBatchLock locks id1).1.isSome = true ∧
        (acquireBatchLock (acquireBatchLock locks id1).2 id2).1.isSome
          = true)) ∧
    (∀ env w, verifyCronSecret env.cronSecret env.cronHeader = true →
      w.locks ≠ [] →
      processDeliveryServe env w =
        { response := ServeResponse.skippedConcurrent, world := w,
          criticalLogged := false }) := by
  refine ⟨?_, ?_, ?_, ?_⟩
  · intro ops
    exact foldl_lock_singleton ops [] (by simp)
  · intro locks newId h
    unfold acquireBatchLock
    rw [if_pos (List.length_pos.mpr h)]
  · intro locks id1 id2 h
    obtain ⟨h1, h2⟩ := h
    cases locks with
    | nil => simp [acquireBatchLock] at h2
    | cons a rest => simp [acquireBatchLock] at h1
  · intro env w hauth hne
    have hacq : acquireBatchLock w.locks env.newLockId = (none, w.locks) := by
      unfold acquireBatchLock
      rw [if_pos (List.length_pos.mpr hne)]
    unfold processDeliveryServe
    rw [hauth, hacq]
    rfl

/-- C10: with the CRON_SECRET environment variable unset, `verifyCronSecret`
is false for every request (missing or empty header included), so the
delivery and the cleanup endpoints answer 401 without touching any state. -/
theorem cron_secret_fails_closed :
    (∀ header : Option String, verifyCronSecret none header = false) ∧
    (∀ env w, env.cronSecret = none →
      processDeliveryServe env w =
        { response := ServeResponse.unauthorized, world := w,
          criticalLogged := false }) ∧
    (∀ (header : Option String) (cutoff : Nat) (logs : List LogRow),
      cleanupLogsServe none header cutoff logs =
        (CleanupResponse.unauthorized, logs)) := by
  refine ⟨fun _ => rfl, ?_, fun _ _ _ => rfl⟩
  intro env w h
  unfold processDeliveryServe
  rw [h]
  rfl

/-- C4: on a message with no delivered ledger row, whatever the statuses of
its `k` existing rows, `prepareDelivery` does not skip, returns attempt
number `k + 1`, and appends the pending log row carrying that number. -/
theorem begin_attempt_numbering (logs : List LogRow) (mid now : Nat)
    (hnd : ∀ r ∈ logs, r.message_id = mid → r.status ≠ LogStatus.delivered) :
    prepareDelivery logs mid now =
      ({ skip := false, attemptNumber := (logsFor logs mid).length + 1 },
        logs ++ [{ message_id := mid,
                   attempt_number := (logsFor logs mid).length + 1,
                   status := LogStatus.pending, email_provider_id := none,
                   error_message := none, created_at := now }]) := by
  have hnil : deliveredLogsFor logs mid = [] := by
    apply List.filter_eq_nil_iff.mpr
    intro r hr
    simp only [Bool.and_eq_true, beq_iff_eq, not_and]
    intro hid hst
    exact hnd r hr hid hst
  unfold prepareDelivery checkDeliveryIdempotency
  rw [hnil]
  rfl

/-- Concrete ledger for the C4 witness: two failed attempts for message 1,
the next attempt gets number 3. -/
def c4Logs : List LogRow :=
  [{ message_id := 1, attempt_number := 1, status := LogStatus.failed,
     email_provider_id := none, error_message := some "send failed",
     created_at := 10 },
   { message_id := 1, attempt_number := 2, status := LogStatus.failed,
     email_provider_id := none, error_message := some "send failed",
     created_at := 20 }]

/-- C4 witness: `prepareDelivery` on the two-failed-attempts ledger. -/
theorem begin_attempt_numbering_witness :
    prepareDelivery c4Logs 1 30 =
      ({ skip := false, attemptNumber := (logsFor c4Logs 1).length + 1 },
        c4Logs ++ [{ message_id := 1,
                     attempt_number := (logsFor c4Logs 1).length + 1,
                     status := LogStatus.pending, email_provider_id := none,
                     error_message := none, created_at := 30 }]) :=
  begin_attempt_numbering c4Logs 1 30 (by decide)

/-- C9: the composer fails exactly on a structurally invalid recipient (no
`@`); with a valid recipient a missing message text renders as empty content
in the fixed template, and an absent video URL leaves the video section out
of the rendered email entirely. -/
theorem composer_error_handling :
    (∀ (m : MessageRow) (videoUrl : Option String) (appUrl : String),
      validateEmail m.delivery_email = false →
      buildDeliveryEmail m videoUrl appUrl =
        Except.error ("Invalid delivery email: " ++ m.delivery_email)) ∧
    (∀ (m : MessageRow) (videoUrl : Option String) (appUrl : String),
      validateEmail m.delivery_email = true →
      buildDeliveryEmail m videoUrl appUrl =
        Except.ok (deliverySubject,
          deliveryEmailHtml (m.message_text.getD "") videoUrl appUrl)) ∧
    (∀ (m : MessageRow) (videoUrl : Option String) (appUrl : String),
      validateEmail m.delivery_email = true → m.message_text = none →
      buildDeliveryEmail m videoUrl appUrl =
        Except.ok (deliverySubject, deliveryEmailHtml "" videoUrl appUrl)) ∧
    (videoSection none = "") ∧
    (∀ (text appUrl : String),
      deliveryEmailHtml text none appUrl =
        htmlPartA ++ text ++ htmlPartB ++ "" ++ htmlPartC ++ appUrl
          ++ htmlPartD) := by
  refine ⟨?_, ?_, ?_, rfl, fun _ _ => rfl⟩
  · intro m u a h
    unfold buildDeliveryEmail
    rw [h]
    rfl
  · intro m u a h
    unfold buildDeliveryEmail
    rw [h]
    rfl
  · intro m u a h hn
    unfold buildDeliveryEmail
    rw [h, hn]
    rfl

/-- C8: a webhook whose checkout-session id already has a completed payment
row answers success and leaves payments and profiles exactly as they were;
the deciding lookup filters on the session id alone, with no status filter. -/
theorem webhook_completed_idempotent (uid : Nat) (csid pid : String)
    (paymentInsertFails profileUpdateFails paymentUpdateFails : Bool)
    (st : StripeState) (p : Payment)
    (hone : st.payments.filter
        (fun q => q.stripe_checkout_session_id == csid) = [p])
    (hcomp : p.status = PayStatus.completed) :
    webhookStripeServe true "checkout.session.completed" (some uid) csid pid
        paymentInsertFails profileUpdateFails paymentUpdateFails st =
      (WebhookResponse.alreadyProcessed, st) := by
  unfold webhookStripeServe
  rw [hone]
  simp [singleRow, hcomp]

/-- Payment row for the C8 witness: session cs_1, already completed. -/
def c8Payment : Payment :=
  { user_id := 7, stripe_payment_intent_id := "pi_1",
    stripe_checkout_session_id := "cs_1", amount_cents := 900,
    product_type := "pro_upgrade", status := PayStatus.completed,
    error_message := none }

/-- Storage state for the C8 witness. -/
def c8State : StripeState :=
  { payments := [c8Payment],
    profiles := [{ id := 7, tier := "pro", free_message_used := true,
                   storage_used_bytes := 0,
                   storage_limit_bytes := 2147483648 }] }

/-- C8 witness: the duplicate webhook for session cs_1 changes nothing. -/
theorem webhook_completed_idempotent_witness :
    webhookStripeServe true "checkout.session.completed" (some 7) "cs_1"
        "pi_1" false false false c8State =
      (WebhookResponse.alreadyProcessed, c8State) :=
  webhook_completed_idempotent 7 "cs_1" "pi_1" false false false c8State
    c8Payment (by decide) rfl

/-- C3 (amended): whenever the run acquires the lock (auth passed, no lock
present), every outcome — selection failure, empty selection, full batch,
early stop — issues the releasing delete before the run completes and the
response never depends on how it ends (no error propagates): a successful
delete removes the lock row with nothing logged; a delete that fails by
throwing leaves the row and logs the critical event; but a delete failure
reported in the result's error field is silently ignored — the row remains
and no critical event is logged. -/
theorem mutex_release_guarantee (env : ServeEnv) (w : World)
    (hauth : verifyCronSecret env.cronSecret env.cronHeader = true)
    (hfree : w.locks = []) :
    ((processDeliveryServe env w).world.locks =
      match env.release with
      | ReleaseOutcome.ok => []
      | ReleaseOutcome.resultError => [env.newLockId]
      | ReleaseOutcome.thrown => [env.newLockId]) ∧
    ((processDeliveryServe env w).criticalLogged =
      (env.release == ReleaseOutcome.thrown)) ∧
    ((processDeliveryServe env w).response =
      (processDeliveryServe { env with release := ReleaseOutcome.ok }
          w).response) := by
  have hacq : acquireBatchLock w.locks env.newLockId
      = (some env.newLockId, [env.newLockId]) := by
    rw [hfree]
    rfl
  have hrel : releaseBatchLock [env.newLockId] env.newLockId = [] := by
    simp [releaseBatchLock]
  cases hq : env.queryFails with
  | true =>
    cases hr : env.release with
    | ok =>
      simp [processDeliveryServe, hauth, hacq, hq, hr, finalizeRelease, hrel]
    | resultError =>
      simp [processDeliveryServe, hauth, hacq, hq, hr, finalizeRelease, hrel]
    | thrown =>
      simp [processDeliveryServe, hauth, hacq, hq, hr, finalizeRelease, hrel]
  | false =>
    cases he : (selectDueMessages w.db.messages env.today).isEmpty with
    | true =>
      cases hr : env.release with
      | ok =>
        simp [processDeliveryServe, hauth, hacq, hq, hr, he, finalizeRelease,
          hrel]
      | resultError =>
        simp [processDeliveryServe, hauth, hacq, hq, hr, he, finalizeRelease,
          hrel]
      | thrown =>
        simp [processDeliveryServe, hauth, hacq, hq, hr, he, finalizeRelease,
          hrel]
    | false =>
      cases hr : env.release with
      | ok =>
        simp [processDeliveryServe, hauth, hacq, hq, hr, he, finalizeRelease,
          hrel]
      | resultError =>
        simp [processDeliveryServe, hauth, hacq, hq, hr, he, finalizeRelease,
          hrel]
      | thrown =>
        simp [processDeliveryServe, hauth, hacq, hq, hr, he, finalizeRelease,
          hrel]

/-- Environment for the C3 witness: correct secret, clean run, delete
succeeds. -/
def c3Env : ServeEnv :=
  { cronSecret := some "s3cr3t", cronHeader := some "s3cr3t",
    newLockId := 42, today := 100, queryFails := false,
    release := ReleaseOutcome.ok, startTime := 0,
    batch := { clock := fun _ => 0,
               send := fun _ => SendOutcome.ok (some "resend-1"),
               signedUrl := fun _ => none,
               appUrl := "https://ftrmsg.app" } }

/-- World for the C3 witness: no lock held, empty tables. -/
def c3World : World :=
  { locks := [], db := { logs := [], messages := [] } }

/-- C3 witness: the concrete clean run releases its lock and logs nothing
critical. -/
theorem mutex_release_guarantee_witness :
    ((processDeliveryServe c3Env c3World).world.locks =
      match c3Env.release with
      | ReleaseOutcome.ok => []
      | ReleaseOutcome.resultError => [c3Env.newLockId]
      | ReleaseOutcome.thrown => [c3Env.newLockId]) ∧
    ((processDeliveryServe c3Env c3World).criticalLogged =
      (c3Env.release == ReleaseOutcome.thrown)) ∧
    ((processDeliveryServe c3Env c3World).response =
      (processDeliveryServe { c3Env with release := ReleaseOutcome.ok }
          c3World).response) :=
  mutex_release_guarantee c3Env c3World (by decide) rfl

/-- The same run with the releasing delete failing through the result's
error field, the channel the source discards. -/
def c3FailEnv : ServeEnv :=
  { c3Env with release := ReleaseOutcome.resultError }

/-- C3 counterexample to the claim as stated: a run that acquired the lock
completes normally (the 200 zero-work response), yet its deletion of the
batch-lock row failed — the row is still there — and no structured critical
event was logged. -/
theorem mutex_release_guarantee_counterexample :
    (processDeliveryServe c3FailEnv c3World).world.locks = [42] ∧
    (processDeliveryServe c3FailEnv c3World).criticalLogged = false ∧
    (processDeliveryServe c3FailEnv c3World).response =
      ServeResponse.ok
        { processed := 0, delivered := 0, failed := 0,
          stoppedEarly := false } := by
  refine ⟨by decide, by decide, by decide⟩

/-- Deleting by a fresh id from an append removes exactly the appended row. -/
theorem filter_append_fresh (msgs : List MessageRow) (m : MessageRow)
    (newId : Nat) (hfresh : ∀ mm ∈ msgs, mm.id ≠ newId) (hm : m.id = newId) :
    (msgs ++ [m]).filter (fun mm => mm.id != newId) = msgs := by
  rw [List.filter_append]
  have h1 : msgs.filter (fun mm => mm.id != newId) = msgs :=
    List.filter_eq_self.mpr (fun mm hmm => by simp [hfresh mm hmm])
  have h2 : [m].filter (fun mm => mm.id != newId) = [] := by
    simp [List.filter_cons, hm]
  rw [h1, h2, List.append_nil]

/-- C7: a free-tier creation that loses the conditional-update race (zero
rows affected by the flag flip) returns an error and compensates: the
message row it optimistically inserted is gone and no table changed. -/
theorem free_tier_lost_race_rollback (uid : Nat) (prof : Profile)
    (data : CreateMessageData) (newId : Nat) (storageRpcFails : Bool)
    (st : AppState)
    (htier : prof.tier = "free") (hflag : prof.free_message_used = false)
    (hvideo : data.videoStoragePath = none)
    (hzero : st.profiles.filter
        (fun p => p.id == uid && p.free_message_used == false) = [])
    (hfresh : ∀ mm ∈ st.messages, mm.id ≠ newId) :
    (createMessage (some uid) (some prof) data newId storageRpcFails
        st).1.success = false ∧
    (createMessage (some uid) (some prof) data newId storageRpcFails
        st).2 = st := by
  have hall := List.filter_eq_nil_iff.mp hzero
  have hmap : st.profiles.map (fun p =>
      if p.id == uid && p.free_message_used == false then
        { p with free_message_used := true }
      else p) = st.profiles := by
    have hfix : ∀ p ∈ st.profiles, (if p.id == uid &&
        p.free_message_used == false then
          { p with free_message_used := true }
        else p) = id p := by
      intro p hp
      rw [if_neg (hall p hp)]
      rfl
    rw [List.map_congr_left hfix, List.map_id]
  have hmsg := filter_append_fresh st.messages
    { id := newId, user_id := uid,
      message_text := some data.messageText,
      video_storage_path := data.videoStoragePath,
      delivery_email := data.deliveryEmail,
      scheduled_date := data.scheduledDate,
      delivery_token := 0,
      status := MsgStatus.pending, delivered_at := none }
    newId hfresh rfl
  have hself : st.messages.filter (fun mm => mm.id != newId) = st.messages :=
    List.filter_eq_self.mpr (fun mm hmm => by simp [hfresh mm hmm])
  simp only [createMessage, htier, hflag, hvideo, Option.isSome_none,
    Bool.and_false, Bool.false_eq_true, if_false, beq_self_eq_true,
    Bool.or_true, if_true, hzero, List.length_nil, hmap, hmsg]
  simp [hzero, hmap, hmsg, hself]

/-- Cached profile for the C7 witness: the client still believes the free
message is unused. -/
def c7Profile : Profile :=
  { id := 7, tier := "free", free_message_used := false,
    storage_used_bytes := 0, storage_limit_bytes := 0 }

/-- Stored state for the C7 witness: a concurrent request has already
flipped the flag, so the conditional update will affect zero rows. -/
def c7State : AppState :=
  { profiles := [{ id := 7, tier := "free", free_message_used := true,
                   storage_used_bytes := 0, storage_limit_bytes := 0 }],
    messages := [] }

/-- Creation data for the C7 witness. -/
def c7Data : CreateMessageData :=
  { messageText := "hello future", scheduledDate := 200,
    deliveryEmail := "me@example.com", videoStoragePath := none,
    videoSizeBytes := 0, videoDurationSeconds := 0 }

/-- C7 witness: the losing creation returns an error and leaves the state
exactly as it was. -/
theorem free_tier_lost_race_rollback_witness :
    (createMessage (some 7) (some c7Profile) c7Data 99 false
        c7State).1.success = false ∧
    (createMessage (some 7) (some c7Profile) c7Data 99 false
        c7State).2 = c7State :=
  free_tier_lost_race_rollback 7 c7Profile c7Data 99 false c7State rfl rfl
    rfl (by decide) (by intro mm hmm; cases hmm)

/-- Where `updateFirst` hits: some row satisfies the predicate, so the result
is the input with the first such row (at some index) replaced. -/
theorem updateFirst_spec (l : List LogRow) (p : LogRow → Bool)
    (f : LogRow → LogRow) (hex : ∃ r ∈ l, p r = true) :
    ∃ i r, l[i]? = some r ∧ p r = true ∧
      updateFirst l p f = l.set i (f r) := by
  induction l with
  | nil =>
    rcases hex with ⟨r, hr, _⟩
    cases hr
  | cons r0 rest ih =>
    cases hp0 : p r0 with
    | true =>
      refine ⟨0, r0, by simp, hp0, ?_⟩
      unfold updateFirst
      rw [hp0]
      rfl
    | false =>
      have hex' : ∃ r ∈ rest, p r = true := by
        rcases hex with ⟨r, hr, hpr⟩
        rcases List.mem_cons.mp hr with h | h
        · subst h
          rw [hp0] at hpr
          cases hpr
        · exact ⟨r, h, hpr⟩
      rcases ih hex' with ⟨i, r, hget, hpr, heq⟩
      refine ⟨i + 1, r, by simpa using hget, hpr, ?_⟩
      unfold updateFirst
      rw [hp0]
      simp only [Bool.false_eq_true, if_false]
      rw [heq]
      rfl

/-- C6: the failure-path update touches exactly one `delivery_logs` row: the
one for the failing message with the newest `created_at`.  That row becomes
`failed` with the error recorded; every other row — other attempts of the
same message and rows of other messages alike — reads back unchanged. -/
theorem fail_attempt_targets_most_recent (logs : List LogRow) (mid : Nat)
    (e : String) (hne : logsFor logs mid ≠ [])
    (hdist : ∀ j, (hj : j < logs.length) → ∀ k, (hk : k < logs.length) →
      j ≠ k → (logs.get ⟨j, hj⟩).message_id = mid →
      (logs.get ⟨k, hk⟩).message_id = mid →
      (logs.get ⟨j, hj⟩).created_at ≠ (logs.get ⟨k, hk⟩).created_at) :
    ∃ i r, logs[i]? = some r ∧ r.message_id = mid ∧
      (∀ j rj, logs[j]? = some rj → rj.message_id = mid → j ≠ i →
        rj.created_at < r.created_at) ∧
      failMostRecentLog logs mid e =
        logs.set i { r with status := LogStatus.failed,
                            error_message := some e } ∧
      (∀ j, j ≠ i → (failMostRecentLog logs mid e)[j]? = logs[j]?) := by
  cases hmax : mostRecentTime logs mid with
  | none =>
    exfalso
    unfold mostRecentTime at hmax
    exact hne (List.map_eq_nil_iff.mp (List.max?_eq_none_iff.mp hmax))
  | some t =>
    have hspec := (List.max?_eq_some_iff (le_refl)
      (fun a b => max_choice a b) (fun a b c => max_le_iff)).mp hmax
    obtain ⟨htmem, htle⟩ := hspec
    obtain ⟨r0, hr0mem, hr0t⟩ := List.mem_map.mp htmem
    have hr0 := List.mem_filter.mp hr0mem
    have hex : ∃ r ∈ logs,
        (r.message_id == mid && r.created_at == t) = true := by
      refine ⟨r0, hr0.1, ?_⟩
      simp [hr0.2, hr0t]
    obtain ⟨i, r, hget, hpr, heq⟩ := updateFirst_spec logs
      (fun r => r.message_id == mid && r.created_at == t)
      (fun r => { r with status := LogStatus.failed,
                         error_message := some e }) hex
    simp only [Bool.and_eq_true, beq_iff_eq] at hpr
    have hresult : failMostRecentLog logs mid e =
        logs.set i { r with status := LogStatus.failed,
                            error_message := some e } := by
      unfold failMostRecentLog
      rw [hmax]
      exact heq
    refine ⟨i, r, hget, hpr.1, ?_, hresult, ?_⟩
    · intro j rj hgj hjmid hji
      obtain ⟨hj, hjv⟩ := List.getElem?_eq_some.mp hgj
      obtain ⟨hi, hiv⟩ := List.getElem?_eq_some.mp hget
      have hjle : rj.created_at ≤ t := by
        apply htle
        exact List.mem_map.mpr ⟨rj, List.mem_filter.mpr
          ⟨hjv ▸ List.getElem_mem hj, by simp [hjmid]⟩, rfl⟩
      have hjne : rj.created_at ≠ r.created_at := by
        have := hdist j hj i hi hji
          (by rw [List.get_eq_getElem, hjv]; exact hjmid)
          (by rw [List.get_eq_getElem, hiv]; exact hpr.1)
        rw [List.get_eq_getElem, List.get_eq_getElem, hjv, hiv] at this
        exact this
      rw [hpr.2]
      exact lt_of_le_of_ne hjle (hpr.2 ▸ hjne)
    · intro j hji
      rw [hresult]
      exact List.getElem?_set_ne (fun h => hji h.symm)

/-- Ledger for the C6 witness: message 1 has two attempts (the newer at
`created_at` 20), message 2 has one delivered attempt in between. -/
def c6Logs : List LogRow :=
  [{ message_id := 1, attempt_number := 1, status := LogStatus.failed,
     email_provider_id := none, error_message := some "send failed",
     created_at := 10 },
   { message_id := 2, attempt_number := 1, status := LogStatus.delivered,
     email_provider_id := some "resend-2", error_message := none,
     created_at := 15 },
   { message_id := 1, attempt_number := 2, status := LogStatus.pending,
     email_provider_id := none, error_message := none, created_at := 20 }]

/-- C6 witness: failing message 1 in the concrete ledger rewrites only its
newest row. -/
theorem fail_attempt_targets_most_recent_witness :
    ∃ i r, c6Logs[i]? = some r ∧ r.message_id = 1 ∧
      (∀ j rj, c6Logs[j]? = some rj → rj.message_id = 1 → j ≠ i →
        rj.created_at < r.created_at) ∧
      failMostRecentLog c6Logs 1 "smtp timeout" =
        c6Logs.set i { r with status := LogStatus.failed,
                              error_message := some "smtp timeout" } ∧
      (∀ j, j ≠ i →
        (failMostRecentLog c6Logs 1 "smtp timeout")[j]? = c6Logs[j]?) :=
  fail_attempt_targets_most_recent c6Logs 1 "smtp timeout" (by decide)
    (by decide)

/-- Appending a row of another message does not change a message's rows. -/
theorem logsFor_append_other (l : List LogRow) (row : LogRow) (mid : Nat)
    (h : row.message_id ≠ mid) : logsFor (l ++ [row]) mid = logsFor l mid := by
  unfold logsFor
  rw [List.filter_append]
  simp [h]

/-- Failing the most recent row of one message does not change another
message's rows. -/
theorem logsFor_failMostRecent_other (l : List LogRow) (midT : Nat)
    (e : String) (mid : Nat) (h : midT ≠ mid) :
    logsFor (failMostRecentLog l midT e) mid = logsFor l mid := by
  unfold failMostRecentLog
  cases mostRecentTime l midT with
  | none => rfl
  | some t =>
    apply filter_updateFirst_invisible
    intro r hpr
    simp only [Bool.and_eq_true, beq_iff_eq] at hpr
    constructor
    · simp [hpr.1, h]
    · simp [hpr.1, h]

/-- `processMessage` only writes rows of its own message: the log rows and
the `messages` rows of every other id read back unchanged. -/
theorem processMessage_frame (st : DeliveryState) (m : MessageRow)
    (send : SendOutcome) (u : Option String) (a : String) (now : Nat)
    (mid : Nat) (hne : m.id ≠ mid) :
    logsFor (processMessage st m send u a now).2.logs mid
      = logsFor st.logs mid ∧
    msgRowsFor (processMessage st m send u a now).2 mid
      = msgRowsFor st mid := by
  unfold processMessage
  cases hc : checkDeliveryIdempotency st.logs m.id with
  | true =>
    unfold prepareDelivery
    rw [hc]
    simp only [if_true]
    exact ⟨by trivial, by trivial⟩
  | false =>
    unfold prepareDelivery
    rw [hc]
    simp only [Bool.false_eq_true, if_false]
    have hlogs1 : logsFor (st.logs ++
        [{ message_id := m.id,
           attempt_number := (logsFor st.logs m.id).length + 1,
           status := LogStatus.pending, email_provider_id := none,
           error_message := none, created_at := now }]) mid
        = logsFor st.logs mid := logsFor_append_other _ _ _ hne
    cases composeDelivery m u a with
    | error e =>
      simp only []
      unfold failMessagePath
      constructor
      · rw [logsFor_failMostRecent_other _ _ _ _ hne, hlogs1]
      · unfold msgRowsFor
        apply filter_map_fixed
        · intro mm hmm
          rw [if_neg]
          intro hcond
          simp only [Bool.and_eq_true, beq_iff_eq] at hcond
          rw [hcond] at hmm
          simp at hmm
          exact hne hmm
        · intro mm
          by_cases hmz : mm.id == m.id
          · simp only [if_pos hmz]
          · simp only [if_neg hmz]
    | ok email =>
      cases send with
      | err e =>
        unfold executeDelivery
        simp only []
        unfold failMessagePath
        constructor
        · rw [logsFor_failMostRecent_other _ _ _ _ hne, hlogs1]
        · unfold msgRowsFor
          apply filter_map_fixed
          · intro mm hmm
            rw [if_neg]
            intro hcond
            simp only [Bool.and_eq_true, beq_iff_eq] at hcond
            rw [hcond] at hmm
            simp at hmm
            exact hne hmm
          · intro mm
            by_cases hmz : mm.id == m.id
            · simp only [if_pos hmz]
            · simp only [if_neg hmz]
      | ok pid =>
        unfold executeDelivery
        simp only []
        constructor
        · rw [← hlogs1]
          apply filter_map_fixed
          · intro r hr
            rw [if_neg]
            intro hcond
            simp only [Bool.and_eq_true, beq_iff_eq] at hcond
            simp only [beq_iff_eq] at hr
            rw [hcond.1] at hr
            exact hne hr
          · intro r
            by_cases hrz : r.message_id == m.id && r.attempt_number ==
                (logsFor st.logs m.id).length + 1
            · simp only [if_pos hrz]
            · simp only [if_neg hrz]
        · unfold msgRowsFor
          apply filter_map_fixed
          · intro mm hmm
            rw [if_neg]
            intro hcond
            simp only [beq_iff_eq] at hcond
            rw [hcond] at hmm
            simp at hmm
            exact hne hmm
          · intro mm
            by_cases hmz : mm.id == m.id
            · simp only [if_pos hmz]
            · simp only [if_neg hmz]

/-- Deadline behavior of the batch loop from iteration `i`: if the check
fails first at relative iteration `j`, the loop stops there with
`stoppedEarly`, having processed exactly `j` more messages, and the state of
every message outside the processed prefix is untouched. -/
theorem processBatchAux_deadline (env : BatchEnv) (start : Nat) :
    ∀ (msgs : List MessageRow) (i : Nat) (st : DeliveryState)
      (acc : BatchResult) (j : Nat), j < msgs.length →
      TIMEOUT_MS < env.clock (i + j) - start →
      (∀ k, k < j → env.clock (i + k) - start ≤ TIMEOUT_MS) →
      (processBatchAux env start msgs i st acc).1.stoppedEarly = true ∧
      (processBatchAux env start msgs i st acc).1.processed
        = acc.processed + j ∧
      (∀ mid, (∀ m ∈ msgs.take j, m.id ≠ mid) →
        logsFor (processBatchAux env start msgs i st acc).2.logs mid
          = logsFor st.logs mid ∧
        msgRowsFor (processBatchAux env start msgs i st acc).2 mid
          = msgRowsFor st mid) := by
  intro msgs
  induction msgs with
  | nil =>
    intro i st acc j hj _ _
    exact absurd hj (Nat.not_lt_zero j)
  | cons m rest ih =>
    intro i st acc j hj hstop hrun
    cases j with
    | zero =>
      rw [Nat.add_zero] at hstop
      unfold processBatchAux
      rw [if_pos hstop]
      refine ⟨rfl, rfl, fun mid _ => ⟨rfl, rfl⟩⟩
    | succ j' =>
      have hpass : ¬(TIMEOUT_MS < env.clock i - start) := by
        have := hrun 0 (Nat.succ_pos j')
        rw [Nat.add_zero] at this
        exact Nat.not_lt.mpr this
      have hj' : j' < rest.length := Nat.lt_of_succ_lt_succ hj
      have hstop' : TIMEOUT_MS < env.clock ((i + 1) + j') - start := by
        have harith : (i + 1) + j' = i + (j' + 1) := by omega
        rw [harith]
        exact hstop
      have hrun' : ∀ k, k < j' →
          env.clock ((i + 1) + k) - start ≤ TIMEOUT_MS := by
        intro k hk
        have harith : (i + 1) + k = i + (k + 1) := by omega
        rw [harith]
        exact hrun (k + 1) (Nat.succ_lt_succ hk)
      unfold processBatchAux
      rw [if_neg hpass]
      have hih := ih (i + 1)
        (processMessage st m (env.send i) (env.signedUrl i) env.appUrl
          (env.clock i)).2
        { acc with
          processed := acc.processed + 1,
          delivered := acc.delivered +
            (if (processMessage st m (env.send i) (env.signedUrl i) env.appUrl
                (env.clock i)).1 = ProcessStatus.delivered then 1 else 0),
          failed := acc.failed +
            (if (processMessage st m (env.send i) (env.signedUrl i) env.appUrl
                (env.clock i)).1 = ProcessStatus.failed then 1 else 0) }
        j' hj' hstop' hrun'
      refine ⟨hih.1, ?_, ?_⟩
      · rw [hih.2.1]
        simp only []
        omega
      · intro mid hmid
        have hmhead : m.id ≠ mid := by
          apply hmid
          simp [List.take_succ_cons]
        have hmrest : ∀ m' ∈ rest.take j', m'.id ≠ mid := by
          intro m' hm'
          apply hmid
          simp only [List.take_succ_cons, List.mem_cons]
          exact Or.inr hm'
        have hframe := processMessage_frame st m (env.send i)
          (env.signedUrl i) env.appUrl (env.clock i) mid hmhead
        have hrest := hih.2.2 mid hmrest
        exact ⟨hrest.1.trans hframe.1, hrest.2.trans hframe.2⟩

/-- C5: the elapsed-time check runs before each iteration; the first check
past the deadline stops the loop with `stoppedEarly`, `processed` equals the
number of messages attempted before the stop, and every message outside that
prefix keeps its log rows and its `messages` row exactly as they were. -/
theorem deadline_early_stop (env : BatchEnv) (msgs : List MessageRow)
    (start : Nat) (st : DeliveryState) (j : Nat)
    (hj : j < msgs.length)
    (hstop : TIMEOUT_MS < env.clock j - start)
    (hrun : ∀ k, k < j → env.clock k - start ≤ TIMEOUT_MS) :
    (processMessageBatch env msgs start st).1.stoppedEarly = true ∧
    (processMessageBatch env msgs start st).1.processed = j ∧
    (∀ mid, (∀ m ∈ msgs.take j, m.id ≠ mid) →
      logsFor (processMessageBatch env msgs start st).2.logs mid
        = logsFor st.logs mid ∧
      msgRowsFor (processMessageBatch env msgs start st).2 mid
        = msgRowsFor st mid) := by
  have h := processBatchAux_deadline env start msgs 0 st
    { processed := 0, delivered := 0, failed := 0, stoppedEarly := false }
    j hj (by simpa using hstop) (by simpa using hrun)
  unfold processMessageBatch
  exact ⟨h.1, by simpa using h.2.1, h.2.2⟩

/-- One pending message row for the C5 witness. -/
def c5Msg (n : Nat) : MessageRow :=
  { id := n, user_id := 1, message_text := some "hi",
    video_storage_path := none, delivery_email := "a@b.co",
    scheduled_date := 50, delivery_token := 0,
    status := MsgStatus.pending, delivered_at := none }

/-- Five due messages for the C5 witness (Scenario E). -/
def c5Msgs : List MessageRow :=
  [c5Msg 1, c5Msg 2, c5Msg 3, c5Msg 4, c5Msg 5]

/-- Batch environment for the C5 witness: the clock reads 46s at the third
deadline check, past the 45s deadline. -/
def c5Env : BatchEnv :=
  { clock := fun i => if i < 2 then 1000 * i else 46000,
    send := fun _ => SendOutcome.ok (some "resend-1"),
    signedUrl := fun _ => none,
    appUrl := "https://ftrmsg.app" }

/-- Starting state for the C5 witness. -/
def c5St : DeliveryState :=
  { logs := [], messages := c5Msgs }

/-- C5 witness: with the deadline exceeded after message 2 of 5, the run
reports stoppedEarly with processed 2 and messages 3, 4, 5 are untouched. -/
theorem deadline_early_stop_witness :
    (processMessageBatch c5Env c5Msgs 0 c5St).1.stoppedEarly = true ∧
    (processMessageBatch c5Env c5Msgs 0 c5St).1.processed = 2 ∧
    (∀ mid, (∀ m ∈ c5Msgs.take 2, m.id ≠ mid) →
      logsFor (processMessageBatch c5Env c5Msgs 0 c5St).2.logs mid
        = logsFor c5St.logs mid ∧
      msgRowsFor (processMessageBatch c5Env c5Msgs 0 c5St).2 mid
        = msgRowsFor c5St mid) :=
  deadline_early_stop c5Env c5Msgs 0 c5St 2 (by decide) (by decide)
    (by decide)

/-- Membership in a message's log rows. -/
theorem mem_logsFor (l : List LogRow) (mid : Nat) (r : LogRow) :
    r ∈ logsFor l mid ↔ r ∈ l ∧ r.message_id = mid := by
  unfold logsFor
  simp [List.mem_filter]

/-- Attempt numbers never exceed the row count of their message: the shape
`prepareDelivery`'s count-plus-one numbering maintains. -/
def attemptsBounded (logs : List LogRow) (mid : Nat) : Prop :=
  ∀ r ∈ logs, r.message_id = mid →
    r.attempt_number ≤ (logsFor logs mid).length

/-- The per-message ledger invariant: at most one `delivered` row, and every
attempt number bounded by the row count. -/
def deliveryInv (logs : List LogRow) (mid : Nat) : Prop :=
  (deliveredLogsFor logs mid).length ≤ 1 ∧ attemptsBounded logs mid

/-- Under the invariant, a failed idempotency check means no delivered row
at all. -/
theorem deliveredLogsFor_nil_of_check_false (l : List LogRow) (mid : Nat)
    (hc : checkDeliveryIdempotency l mid = false)
    (h1 : (deliveredLogsFor l mid).length ≤ 1) :
    deliveredLogsFor l mid = [] := by
  unfold checkDeliveryIdempotency at hc
  have hne1 : (deliveredLogsFor l mid).length ≠ 1 := by
    intro h
    rw [h] at hc
    simp at hc
  exact List.length_eq_zero.mp (by omega)

/-- With a delivered row on file (and the ledger invariant), `processMessage`
performs nothing: no insert, no send, the whole state unchanged, the message
reported skipped. -/
theorem processMessage_skips_delivered (st : DeliveryState) (m : MessageRow)
    (send : SendOutcome) (u : Option String) (a : String) (now : Nat)
    (h1 : (deliveredLogsFor st.logs m.id).length ≤ 1)
    (hdel : ∃ r ∈ st.logs, r.message_id = m.id ∧
      r.status = LogStatus.delivered) :
    processMessage st m send u a now = (ProcessStatus.skipped, st) := by
  obtain ⟨r, hr, hid, hst⟩ := hdel
  have hmem : r ∈ deliveredLogsFor st.logs m.id := by
    unfold deliveredLogsFor
    exact List.mem_filter.mpr ⟨hr, by simp [hid, hst]⟩
  have hpos : 0 < (deliveredLogsFor st.logs m.id).length :=
    List.length_pos.mpr (List.ne_nil_of_mem hmem)
  have hlen : (deliveredLogsFor st.logs m.id).length = 1 := by omega
  have hcheck : checkDeliveryIdempotency st.logs m.id = true := by
    unfold checkDeliveryIdempotency
    rw [hlen]
    rfl
  unfold processMessage prepareDelivery
  rw [hcheck]
  rfl

/-- The failure-path log update preserves the ledger invariant of every
message: row count and attempt numbers are untouched, and a row set to
`failed` can only leave the delivered set. -/
theorem failMostRecentLog_preserves_inv (l : List LogRow) (midT : Nat)
    (e : String) (mid : Nat) (hinv : deliveryInv l mid) :
    deliveryInv (failMostRecentLog l midT e) mid := by
  unfold failMostRecentLog
  cases mostRecentTime l midT with
  | none => exact hinv
  | some t =>
    set f : LogRow → LogRow := fun r =>
      { r with status := LogStatus.failed, error_message := some e } with hf
    set p : LogRow → Bool := fun r =>
      r.message_id == midT && r.created_at == t with hp
    have hlenFor : (logsFor (updateFirst l p f) mid).length
        = (logsFor l mid).length := by
      unfold logsFor
      apply filter_updateFirst_length
      intro r
      simp [hf]
    constructor
    · have hle : (deliveredLogsFor (updateFirst l p f) mid).length
          ≤ (deliveredLogsFor l mid).length := by
        unfold deliveredLogsFor
        apply filter_updateFirst_length_le
        intro r
        simp [hf]
      exact Nat.le_trans hle hinv.1
    · intro r' hr' hid
      rw [hlenFor]
      rcases updateFirst_mem l p f r' hr' with h | ⟨r0, hr0, he⟩
      · exact hinv.2 r' h hid
      · subst he
        have hid0 : r0.message_id = mid := by simpa [hf] using hid
        have := hinv.2 r0 hr0 hid0
        simpa [hf] using this

/-- `prepareDelivery`'s insert preserves the ledger invariant of every
message: the fresh row is pending, carries number count-plus-one, and grows
its own message's count by one. -/
theorem append_pending_preserves_inv (l : List LogRow) (midI now mid : Nat)
    (hinv : deliveryInv l mid) :
    deliveryInv
      (l ++ [{ message_id := midI,
               attempt_number := (logsFor l midI).length + 1,
               status := LogStatus.pending,
               email_provider_id := none,
               error_message := none,
               created_at := now }]) mid := by
  set fresh : LogRow :=
    { message_id := midI, attempt_number := (logsFor l midI).length + 1,
      status := LogStatus.pending, email_provider_id := none,
      error_message := none, created_at := now } with hfresh
  have hdel : deliveredLogsFor (l ++ [fresh]) mid = deliveredLogsFor l mid := by
    unfold deliveredLogsFor
    rw [List.filter_append]
    have hq : (fresh.message_id == mid && fresh.status == LogStatus.delivered)
        = false := by
      simp [hfresh]
    simp [List.filter_cons, hq]
  constructor
  · rw [hdel]
    exact hinv.1
  · by_cases hm : midI = mid
    · subst hm
      have hfor : logsFor (l ++ [fresh]) midI = logsFor l midI ++ [fresh] := by
        unfold logsFor
        rw [List.filter_append]
        simp [List.filter_cons, hfresh]
      intro r hr hid
      rw [hfor, List.length_append, List.length_cons, List.length_nil]
      rcases List.mem_append.mp hr with h | h
      · have := hinv.2 r h hid
        omega
      · rcases List.mem_cons.mp h with h' | h'
        · subst h'
          simp [hfresh]
        · cases h'
    · have hfor : logsFor (l ++ [fresh]) mid = logsFor l mid :=
        logsFor_append_other l fresh mid (by simpa [hfresh] using hm)
      intro r hr hid
      rw [hfor]
      rcases List.mem_append.mp hr with h | h
      · exact hinv.2 r h hid
      · rcases List.mem_cons.mp h with h' | h'
        · subst h'
          exact absurd hid (by simpa [hfresh] using hm)
        · cases h'

/-- Marking one message's attempt delivered is invisible to every other
message's ledger invariant. -/
theorem deliver_map_inv_other (l1 : List LogRow) (midI n : Nat)
    (pid : Option String) (mid : Nat) (hne : midI ≠ mid)
    (hinv : deliveryInv l1 mid) :
    deliveryInv (l1.map (fun r =>
      if r.message_id == midI && r.attempt_number == n then
        { r with status := LogStatus.delivered, email_provider_id := pid }
      else r)) mid := by
  set g : LogRow → LogRow := fun r =>
    if r.message_id == midI && r.attempt_number == n then
      { r with status := LogStatus.delivered, email_provider_id := pid }
    else r with hg
  have hgid : ∀ r, (g r).message_id = r.message_id := by
    intro r
    simp only [hg]
    by_cases h : (r.message_id == midI && r.attempt_number == n) = true
    · rw [if_pos h]
    · rw [if_neg h]
  have hgfix : ∀ r, r.message_id = mid → g r = r := by
    intro r hrid
    have hb : ¬((r.message_id == midI && r.attempt_number == n) = true) := by
      have h1 : (r.message_id == midI) = false := by
        rw [hrid]
        exact beq_eq_false_iff_ne.mpr (fun h => hne h.symm)
      simp [h1]
    simp only [hg]
    rw [if_neg hb]
  have hfor : logsFor (l1.map g) mid = logsFor l1 mid := by
    unfold logsFor
    apply filter_map_fixed
    · intro r hr
      exact hgfix r (by simpa using hr)
    · intro r
      rw [hgid r]
  have hdel : deliveredLogsFor (l1.map g) mid = deliveredLogsFor l1 mid := by
    unfold deliveredLogsFor
    apply filter_map_fixed
    · intro r hr
      simp only [Bool.and_eq_true, beq_iff_eq] at hr
      exact hgfix r hr.1
    · intro r
      by_cases h : r.message_id = mid
      · rw [hgfix r h]
      · have h1 : (r.message_id == mid) = false := beq_eq_false_iff_ne.mpr h
        have h2 : ((g r).message_id == mid) = false := by
          rw [hgid r]
          exact h1
        rw [h1, h2]
        rfl
  constructor
  · rw [hdel]
    exact hinv.1
  · intro r' hr' hid
    rw [hfor]
    obtain ⟨r, hr, he⟩ := List.mem_map.mp hr'
    have hrid : r.message_id = mid := by
      rw [← hgid r, he]
      exact hid
    rw [← he, hgfix r hrid] at hid ⊢
    exact hinv.2 r hr hrid

/-- The delivered-marking update after a fresh insert: with no delivered row
on file, exactly the fresh attempt (the only row numbered count-plus-one)
becomes delivered, so the message ends with exactly one delivered row and
attempt numbers still bounded by the new count. -/
theorem deliver_map_inv_self (l : List LogRow) (mid now : Nat)
    (pid : Option String)
    (hc : checkDeliveryIdempotency l mid = false)
    (hinv : deliveryInv l mid) :
    deliveryInv
      ((l ++ [({ message_id := mid,
                 attempt_number := (logsFor l mid).length + 1,
                 status := LogStatus.pending,
                 email_provider_id := none,
                 error_message := none,
                 created_at := now } : LogRow)]).map (fun r =>
        if r.message_id == mid &&
            r.attempt_number == (logsFor l mid).length + 1 then
          { r with status := LogStatus.delivered, email_provider_id := pid }
        else r)) mid := by
  set n : Nat := (logsFor l mid).length + 1 with hn
  set fresh : LogRow :=
    { message_id := mid, attempt_number := n,
      status := LogStatus.pending, email_provider_id := none,
      error_message := none, created_at := now } with hfresh
  set g : LogRow → LogRow := fun r =>
    if r.message_id == mid && r.attempt_number == n then
      { r with status := LogStatus.delivered, email_provider_id := pid }
    else r with hg
  have hgid : ∀ r, (g r).message_id = r.message_id := by
    intro r
    simp only [hg]
    by_cases h : (r.message_id == mid && r.attempt_number == n) = true
    · rw [if_pos h]
    · rw [if_neg h]
  have hgatt : ∀ r, (g r).attempt_number = r.attempt_number := by
    intro r
    simp only [hg]
    by_cases h : (r.message_id == mid && r.attempt_number == n) = true
    · rw [if_pos h]
    · rw [if_neg h]
  have hfix : ∀ r ∈ logsFor l mid, g r = r := by
    intro r hr
    obtain ⟨hrl, hrid⟩ := (mem_logsFor l mid r).mp hr
    have hb := hinv.2 r hrl hrid
    have hnb : (r.attempt_number == n) = false := by
      apply beq_eq_false_iff_ne.mpr
      omega
    have hcond : ¬((r.message_id == mid && r.attempt_number == n) = true) := by
      simp [hnb]
    simp only [hg]
    rw [if_neg hcond]
  have hcondF : (fresh.message_id == mid && fresh.attempt_number == n)
      = true := by
    simp [hfresh]
  have hgfresh : g fresh =
      { fresh with status := LogStatus.delivered,
                   email_provider_id := pid } := by
    simp only [hg]
    rw [if_pos hcondF]
  have hfor1 : logsFor (l ++ [fresh]) mid = logsFor l mid ++ [fresh] := by
    unfold logsFor
    rw [List.filter_append]
    simp [List.filter_cons, hfresh]
  have hmapfix : (logsFor l mid).map g = logsFor l mid := by
    conv_rhs => rw [← List.map_id (logsFor l mid)]
    exact List.map_congr_left (fun r hr => hfix r hr)
  have hforAll : logsFor ((l ++ [fresh]).map g) mid
      = logsFor l mid ++ [g fresh] := by
    have hcomm : logsFor ((l ++ [fresh]).map g) mid
        = (logsFor (l ++ [fresh]) mid).map g := by
      unfold logsFor
      apply filter_map_comm
      intro r
      rw [hgid r]
    rw [hcomm, hfor1, List.map_append, hmapfix]
    rfl
  have hlenAll : (logsFor ((l ++ [fresh]).map g) mid).length
      = (logsFor l mid).length + 1 := by
    rw [hforAll, List.length_append, List.length_cons, List.length_nil]
  have hdelnil : deliveredLogsFor l mid = [] :=
    deliveredLogsFor_nil_of_check_false l mid hc hinv.1
  constructor
  · rw [deliveredLogsFor_eq_filter, hforAll, List.filter_append]
    have h1 : (logsFor l mid).filter
        (fun r => r.status == LogStatus.delivered) = [] := by
      rw [← deliveredLogsFor_eq_filter]
      exact hdelnil
    rw [h1]
    simp [List.filter_cons, hgfresh, hfresh]
  · intro r' hr' hid
    rw [hlenAll]
    obtain ⟨r, hr, he⟩ := List.mem_map.mp hr'
    rcases List.mem_append.mp hr with h | h
    · have hrid : r.message_id = mid := by
        rw [← hgid r, he]
        exact hid
      have hfixr : g r = r := hfix r ((mem_logsFor l mid r).mpr ⟨h, hrid⟩)
      rw [← he, hfixr]
      have := hinv.2 r h hrid
      omega
    · rcases List.mem_cons.mp h with h' | h'
      · subst h'
        rw [← he, hgatt fresh]
      · cases h'

/-- `processMessage` preserves the per-message ledger invariant of every
message in every branch: skip, compose failure, send failure, and
successful delivery. -/
theorem processMessage_preserves_inv (st : DeliveryState) (m : MessageRow)
    (send : SendOutcome) (u : Option String) (a : String) (now : Nat)
    (mid : Nat) (hinv : deliveryInv st.logs mid) :
    deliveryInv (processMessage st m send u a now).2.logs mid := by
  unfold processMessage
  cases hc : checkDeliveryIdempotency st.logs m.id with
  | true =>
    unfold prepareDelivery
    rw [hc]
    simp only [if_true]
    exact hinv
  | false =>
    unfold prepareDelivery
    rw [hc]
    simp only [Bool.false_eq_true, if_false]
    have hinv1 := append_pending_preserves_inv st.logs m.id now mid hinv
    cases composeDelivery m u a with
    | error e =>
      simp only []
      unfold failMessagePath
      exact failMostRecentLog_preserves_inv _ m.id e mid hinv1
    | ok email =>
      cases send with
      | err e =>
        unfold executeDelivery
        simp only []
        unfold failMessagePath
        exact failMostRecentLog_preserves_inv _ m.id e mid hinv1
      | ok pid =>
        unfold executeDelivery
        simp only []
        by_cases hm : m.id = mid
        · subst hm
          exact deliver_map_inv_self st.logs m.id now pid hc hinv
        · exact deliver_map_inv_other _ m.id
            ((logsFor st.logs m.id).length + 1) pid mid hm hinv1

/-- The batch loop preserves the ledger invariant of every message. -/
theorem processBatchAux_preserves_inv (env : BatchEnv) (start : Nat) :
    ∀ (msgs : List MessageRow) (i : Nat) (st : DeliveryState)
      (acc : BatchResult) (mid : Nat), deliveryInv st.logs mid →
      deliveryInv (processBatchAux env start msgs i st acc).2.logs mid := by
  intro msgs
  induction msgs with
  | nil =>
    intro i st acc mid h
    exact h
  | cons m rest ih =>
    intro i st acc mid h
    unfold processBatchAux
    by_cases hc : TIMEOUT_MS < env.clock i - start
    · rw [if_pos hc]
      exact h
    · rw [if_neg hc]
      exact ih (i + 1) _ _ mid
        (processMessage_preserves_inv st m (env.send i) (env.signedUrl i)
          env.appUrl (env.clock i) mid h)

/-- One `process-delivery` run preserves the ledger invariant of every
message. -/
theorem processDeliveryServe_preserves_inv (env : ServeEnv) (w : World)
    (mid : Nat) (hinv : deliveryInv w.db.logs mid) :
    deliveryInv (processDeliveryServe env w).world.db.logs mid := by
  unfold processDeliveryServe
  by_cases hauth : verifyCronSecret env.cronSecret env.cronHeader
  · simp only [hauth, Bool.not_true, Bool.false_eq_true, if_false]
    unfold acquireBatchLock
    by_cases hl : 0 < w.locks.length
    · rw [if_pos hl]
      exact hinv
    · rw [if_neg hl]
      simp only []
      by_cases hq : env.queryFails
      · simp only [hq, if_true]
        unfold finalizeRelease
        cases hr : env.release with
        | ok => exact hinv
        | resultError => exact hinv
        | thrown => exact hinv
      · simp only [hq, Bool.false_eq_true, if_false]
        by_cases he : (selectDueMessages w.db.messages env.today).isEmpty
        · simp only [he, if_true]
          unfold finalizeRelease
          cases hr : env.release with
          | ok => exact hinv
          | resultError => exact hinv
          | thrown => exact hinv
        · simp only [he, Bool.false_eq_true, if_false]
          unfold finalizeRelease
          have hbatch := processBatchAux_preserves_inv env.batch env.startTime
            (selectDueMessages w.db.messages env.today) 0 w.db
            { processed := 0, delivered := 0, failed := 0,
              stoppedEarly := false } mid hinv
          cases hr : env.release with
          | ok => exact hbatch
          | resultError => exact hbatch
          | thrown => exact hbatch
  · simp only [Bool.not_eq_true', Bool.not_eq_false] at hauth
    simp only [hauth]
    simp only [Bool.not_false, if_true]
    exact hinv

/-- C1: the per-message ledger invariant — at most one delivered
`delivery_logs` row, attempt numbers bounded by the row count — holds of the
empty ledger, is preserved by each `processMessage`, by each full
`process-delivery` run, and by any sequence of sequential runs; and whenever
a delivered row already exists for a message, processing it changes no state
(no insert, no send) and reports it skipped. -/
theorem delivery_idempotency :
    (∀ mid : Nat, deliveryInv [] mid) ∧
    (∀ (st : DeliveryState) (m : MessageRow) (send : SendOutcome)
      (u : Option String) (a : String) (now mid : Nat),
      deliveryInv st.logs mid →
      deliveryInv (processMessage st m send u a now).2.logs mid) ∧
    (∀ (env : ServeEnv) (w : World) (mid : Nat),
      deliveryInv w.db.logs mid →
      deliveryInv (processDeliveryServe env w).world.db.logs mid) ∧
    (∀ (envs : List ServeEnv) (w : World) (mid : Nat),
      deliveryInv w.db.logs mid →
      deliveryInv (envs.foldl
        (fun w' e => (processDeliveryServe e w').world) w).db.logs mid) ∧
    (∀ (st : DeliveryState) (m : MessageRow) (send : SendOutcome)
      (u : Option String) (a : String) (now : Nat),
      deliveryInv st.logs m.id →
      (∃ r ∈ st.logs, r.message_id = m.id ∧
        r.status = LogStatus.delivered) →
      processMessage st m send u a now = (ProcessStatus.skipped, st)) := by
  refine ⟨?_, ?_, ?_, ?_, ?_⟩
  · intro mid
    constructor
    · simp [deliveredLogsFor]
    · intro r hr
      cases hr
  · intro st m send u a now mid h
    exact processMessage_preserves_inv st m send u a now mid h
  · intro env w mid h
    exact processDeliveryServe_preserves_inv env w mid h
  · intro envs
    induction envs with
    | nil =>
      intro w mid h
      exact h
    | cons e rest ih =>
      intro w mid h
      exact ih _ mid (processDeliveryServe_preserves_inv e w mid h)
  · intro st m send u a now hinv hdel
    exact processMessage_skips_delivered st m send u a now hinv.1 hdel
